import Mathlib

/-!
Shallow embedding of the arithmetic core of the `temporal` repository
(`src/components/instant.rs`, `src/components/time.rs`) and of its
FFI bridge enumerations (`temporal_capi/src/options.rs`), together with
theorems settling the frozen claims about the natural-language spec.

The source's `f64` component values are modelled as integers (valid
Temporal component magnitudes are integral, per the spec's design notes),
`BigInt` is `Int`, and fallible operations return `Except TemporalError`.
Where the source performs `f64` arithmetic on epoch-nanosecond magnitudes —
which exceed the exact-integer range `2^53` of a double — the IEEE binary64
rounding of each operation is modelled explicitly (`roundToF64` below):
every value that arises there is integer-valued, and IEEE requires each
operation to return the correctly rounded exact result.

Definitions whose Rust source file is not part of the repository snapshot
(the rounding engine `rounding.rs`, the options resolver and core enums of
`options.rs`, `iso.rs`, `duration.rs`, and the global constants of `lib.rs`)
are modelled from the spec; each such definition carries a doc comment
starting with `Modelled from the spec:`.
-/

namespace Temporal

/-- Error kinds of `TemporalError`: `range` stands for `RangeError`,
`type` for `TypeError`.  Error messages are not modelled. -/
inductive TemporalError
  | range
  | type
  deriving DecidableEq

/-- The result type `TemporalResult<T> = Result<T, TemporalError>`. -/
abbrev TemporalResult (α : Type) := Except TemporalError α

instance {ε α : Type} [DecidableEq ε] [DecidableEq α] :
    DecidableEq (Except ε α) := fun a b =>
  match a, b with
  | .ok x, .ok y =>
    if h : x = y then .isTrue (by rw [h])
    else .isFalse (by intro hc; cases hc; exact h rfl)
  | .error x, .error y =>
    if h : x = y then .isTrue (by rw [h])
    else .isFalse (by intro hc; cases hc; exact h rfl)
  | .ok _, .error _ => .isFalse (by intro hc; cases hc)
  | .error _, .ok _ => .isFalse (by intro hc; cases hc)

/-- Modelled from the spec: the core `options::ArithmeticOverflow`
enumeration (its source file is not in the snapshot): `Constrain` then
`Reject`. -/
inductive ArithmeticOverflow
  | constrain
  | reject
  deriving DecidableEq

/-- The ordinal of a core `ArithmeticOverflow` (declaration order). -/
def ArithmeticOverflow.ordinal : ArithmeticOverflow → Nat
  | .constrain => 0
  | .reject => 1

/-- Modelled from the spec: the core `options::TemporalUnit` enumeration,
"`Auto, Nanosecond..Year` ordinal 0-10". -/
inductive TemporalUnit
  | auto
  | nanosecond
  | microsecond
  | millisecond
  | second
  | minute
  | hour
  | day
  | week
  | month
  | year
  deriving DecidableEq

/-- The ordinal (discriminant) of a core `TemporalUnit`, 0-10. -/
def TemporalUnit.ordinal : TemporalUnit → Nat
  | .auto => 0
  | .nanosecond => 1
  | .microsecond => 2
  | .millisecond => 3
  | .second => 4
  | .minute => 5
  | .hour => 6
  | .day => 7
  | .week => 8
  | .month => 9
  | .year => 10

/-- Modelled from the spec: `TemporalUnit::to_maximum_rounding_increment`
(core `options.rs`, missing from the snapshot): "Hour→24, Minute/Second→60,
Millisecond/Microsecond/Nanosecond→1000"; other units have no maximum. -/
def TemporalUnit.to_maximum_rounding_increment : TemporalUnit → Option Nat
  | .hour => some 24
  | .minute => some 60
  | .second => some 60
  | .millisecond => some 1000
  | .microsecond => some 1000
  | .nanosecond => some 1000
  | _ => none

/-- Nanoseconds per time unit (the per-unit scale factors of the spec's
constant table); `none` for `Auto` and the calendar units. -/
def TemporalUnit.nsPer : TemporalUnit → Option Nat
  | .hour => some 3600000000000
  | .minute => some 60000000000
  | .second => some 1000000000
  | .millisecond => some 1000000
  | .microsecond => some 1000
  | .nanosecond => some 1
  | _ => none

/-- Modelled from the spec: the core `options::TemporalRoundingMode`
enumeration, the nine signed rounding modes in their stable order. -/
inductive TemporalRoundingMode
  | ceil
  | floor
  | expand
  | trunc
  | halfCeil
  | halfFloor
  | halfExpand
  | halfTrunc
  | halfEven
  deriving DecidableEq

/-- The ordinal of a core `TemporalRoundingMode` (declaration order). -/
def TemporalRoundingMode.ordinal : TemporalRoundingMode → Nat
  | .ceil => 0
  | .floor => 1
  | .expand => 2
  | .trunc => 3
  | .halfCeil => 4
  | .halfFloor => 5
  | .halfExpand => 6
  | .halfTrunc => 7
  | .halfEven => 8

/-- Modelled from the spec: the core `options::TemporalUnsignedRoundingMode`,
the five unsigned rounding primitives. -/
inductive TemporalUnsignedRoundingMode
  | infinity
  | zero
  | halfInfinity
  | halfZero
  | halfEven
  deriving DecidableEq

/-- Modelled from the spec: the resolution of a signed rounding mode, given
the value's sign, to one of the five unsigned primitives ("each signed mode
resolves, given the value's sign, to one of five unsigned rounding
primitives"). -/
def TemporalRoundingMode.get_unsigned_round_mode (mode : TemporalRoundingMode)
    (isNegative : Bool) : TemporalUnsignedRoundingMode :=
  match mode, isNegative with
  | .ceil, false => .infinity
  | .ceil, true => .zero
  | .floor, false => .zero
  | .floor, true => .infinity
  | .expand, _ => .infinity
  | .trunc, _ => .zero
  | .halfCeil, false => .halfInfinity
  | .halfCeil, true => .halfZero
  | .halfFloor, false => .halfZero
  | .halfFloor, true => .halfInfinity
  | .halfExpand, _ => .halfInfinity
  | .halfTrunc, _ => .halfZero
  | .halfEven, _ => .halfEven

/-- Modelled from the spec: the rounding engine's unsigned primitive applied
to an absolute magnitude `q * inc + r` (with `r < inc`); returns the rounded
quotient.  Ties of the half modes resolve per mode name. -/
def applyUnsignedRoundingMode (q r inc : Nat) :
    TemporalUnsignedRoundingMode → Nat
  | .zero => q
  | .infinity => if r = 0 then q else q + 1
  | .halfZero => if 2 * r ≤ inc then q else q + 1
  | .halfInfinity => if 2 * r < inc then q else q + 1
  | .halfEven =>
    if 2 * r < inc then q
    else if inc < 2 * r then q + 1
    else if q % 2 = 0 then q else q + 1

/-- Modelled from the spec: the sign-aware rounding engine
(`IncrementRounder` over its signed path, `rounding.rs` missing from the
snapshot): the signed mode is resolved with the value's sign to an unsigned
primitive, the primitive is applied to the absolute magnitude, and the sign
is reapplied.  Returns the nearest representable multiple of `inc`. -/
def roundNumberToIncrement (x : Int) (inc : Nat)
    (mode : TemporalRoundingMode) : Int :=
  let neg := decide (x < 0)
  let m := x.natAbs
  let rounded :=
    applyUnsignedRoundingMode (m / inc) (m % inc) inc
      (mode.get_unsigned_round_mode neg) * inc
  if neg then -(rounded : Int) else (rounded : Int)

/-- Modelled from the spec and the source signature:
`IncrementRounder::<f64>::from_positive_parts(..).round_as_positive(mode)`
(`rounding.rs` missing from the snapshot) is the engine's positive path —
the mode is resolved with positive sign to an unsigned primitive and applied
to the absolute magnitude; per `BigInt::from_u64` in
`Instant::round_instant` the result is an unsigned 64-bit magnitude, so the
sign is never reapplied on this path. -/
def roundAsPositive (x : Int) (inc : Nat) (mode : TemporalRoundingMode) : Nat :=
  applyUnsignedRoundingMode (x.natAbs / inc) (x.natAbs % inc) inc
    (mode.get_unsigned_round_mode false) * inc

/-- Modelled from the spec: `RoundingIncrement::try_from(f64)` — "a
validated positive integer" in `u32` range; anything else fails
`RangeError`.  The validated increment is carried as a `Nat`. -/
def RoundingIncrement.try_from (x : Int) : TemporalResult Nat :=
  if 1 ≤ x ∧ x ≤ 4294967295 then .ok x.toNat else .error .range

/-- Modelled from the spec: `RoundingIncrement::validate(dividend,
inclusive)` — the increment "must not exceed that maximum and must evenly
divide it"; the maximum is `dividend` itself when `inclusive`, one less
otherwise. -/
def RoundingIncrement.validate (inc dividend : Nat) (inclusive : Bool) :
    TemporalResult Unit :=
  let maximum := if inclusive then dividend else dividend - 1
  if inc ≤ maximum ∧ dividend % inc = 0 then .ok () else .error .range

/-- Modelled from the spec: `options::DifferenceOperation`
(`Since` or `Until`). -/
inductive DifferenceOperation
  | since
  | until
  deriving DecidableEq

/-- Modelled from the spec: the crate's `Sign` type. -/
inductive Sign
  | positive
  | zero
  | negative
  deriving DecidableEq

/-- Modelled from the spec: the sign multiplier of a difference operation,
"+1 for `Until`, -1 for `Since`". -/
def DifferenceOperation.sign : DifferenceOperation → Sign
  | .until => .positive
  | .since => .negative

/-- Modelled from the spec: user-supplied difference settings — every field
optional (core `options.rs` missing from the snapshot). -/
structure DifferenceSettings where
  largest_unit : Option TemporalUnit := none
  smallest_unit : Option TemporalUnit := none
  rounding_mode : Option TemporalRoundingMode := none
  increment : Option Int := none
  deriving DecidableEq

/-- The canonical resolved rounding request (field order as in the literal
at `time.rs:347-352`). -/
structure ResolvedRoundingOptions where
  largest_unit : TemporalUnit
  increment : Nat
  smallest_unit : TemporalUnit
  rounding_mode : TemporalRoundingMode
  deriving DecidableEq

/-- Modelled from the spec: the operation-independent part of
`ResolvedRoundingOptions::from_diff_settings` (core `options.rs` missing):
units are bounded to `[defaultSmallest, fallbackLargest]`, `largest_unit`
defaults when absent and must not be finer than `smallest_unit`
(`RangeError` otherwise), the increment defaults to 1 and must be a
positive integer in `u32` range, the mode defaults to `HalfExpand`.
The increment-divisibility validation (steps 11-13 of
`GetDifferenceSettings`) is deliberately absent, per the source TODO at
`instant.rs:75-76`. -/
def ResolvedRoundingOptions.resolve_diff (s : DifferenceSettings)
    (fallbackLargest defaultSmallest : TemporalUnit) :
    TemporalResult ResolvedRoundingOptions :=
  let smallest := s.smallest_unit.getD defaultSmallest
  if 1 ≤ smallest.ordinal ∧ smallest.ordinal ≤ fallbackLargest.ordinal then
    let largest := s.largest_unit.getD fallbackLargest
    if smallest.ordinal ≤ largest.ordinal ∧
        largest.ordinal ≤ fallbackLargest.ordinal then
      match RoundingIncrement.try_from (s.increment.getD 1) with
      | .error e => .error e
      | .ok inc =>
        .ok ⟨largest, inc, smallest, s.rounding_mode.getD .halfExpand⟩
    else .error .range
  else .error .range

/-- Modelled from the spec: `ResolvedRoundingOptions::from_diff_settings` —
"`resolve(user_settings, operation, ...) -> (sign, ResolvedRoundingOptions)`";
the operation determines only the sign multiplier. -/
def ResolvedRoundingOptions.from_diff_settings (s : DifferenceSettings)
    (op : DifferenceOperation)
    (fallbackLargest defaultSmallest : TemporalUnit) :
    TemporalResult (Sign × ResolvedRoundingOptions) :=
  (ResolvedRoundingOptions.resolve_diff s fallbackLargest defaultSmallest).map
    (fun r => (op.sign, r))

/-- Modelled from the spec: `TimeDuration` (`duration.rs` missing from the
snapshot) — "unrounded signed time-only quantity, expressed in six
components"; the `f64` component values are modelled as exact integers. -/
structure TimeDuration where
  hours : Int
  minutes : Int
  seconds : Int
  milliseconds : Int
  microseconds : Int
  nanoseconds : Int
  deriving DecidableEq

/-- Modelled from the spec: `TimeDuration::negated` — "component-wise sign
flip". -/
def TimeDuration.negated (d : TimeDuration) : TimeDuration :=
  ⟨-d.hours, -d.minutes, -d.seconds, -d.milliseconds, -d.microseconds,
    -d.nanoseconds⟩

/-- The exact total of a `TimeDuration` in nanoseconds,
`Σ(component × its nanosecond scale)`. -/
def TimeDuration.total_nanoseconds (d : TimeDuration) : Int :=
  d.hours * 3600000000000 + d.minutes * 60000000000 +
    d.seconds * 1000000000 + d.milliseconds * 1000000 +
    d.microseconds * 1000 + d.nanoseconds

/-- Modelled from the spec: the sign-consistency invariant — "either all six
components are ≥ 0 or all are ≤ 0". -/
def TimeDuration.is_sign_consistent (d : TimeDuration) : Bool :=
  decide ((0 ≤ d.hours ∧ 0 ≤ d.minutes ∧ 0 ≤ d.seconds ∧
      0 ≤ d.milliseconds ∧ 0 ≤ d.microseconds ∧ 0 ≤ d.nanoseconds) ∨
    (d.hours ≤ 0 ∧ d.minutes ≤ 0 ∧ d.seconds ≤ 0 ∧
      d.milliseconds ≤ 0 ∧ d.microseconds ≤ 0 ∧ d.nanoseconds ≤ 0))

/-- Modelled from the spec: `TimeDuration::new` — the validated constructor,
rejecting mixed-sign component sets with `RangeError`. -/
def TimeDuration.new (h mi s ms us ns : Int) : TemporalResult TimeDuration :=
  let d : TimeDuration := ⟨h, mi, s, ms, us, ns⟩
  if d.is_sign_consistent then .ok d else .error .range

/-- Modelled from the spec: `NormalizedTimeDuration` — "the same quantity
collapsed to an exact (seconds, subsecond-nanoseconds) pair". -/
structure NormalizedTimeDuration where
  seconds : Int
  subseconds : Int
  deriving DecidableEq

/-- The exact nanosecond total of a normalized time duration. -/
def NormalizedTimeDuration.total (n : NormalizedTimeDuration) : Int :=
  n.seconds * 1000000000 + n.subseconds

/-- Modelled from the spec: `TimeDuration::to_normalized` — exact conversion
of the six components into the (seconds, subsecond-nanoseconds) pair; both
members carry the sign of the total (truncated division). -/
def TimeDuration.to_normalized (d : TimeDuration) : NormalizedTimeDuration :=
  ⟨d.total_nanoseconds.tdiv 1000000000, d.total_nanoseconds.tmod 1000000000⟩

/-- Modelled from the spec: rounding a normalized duration at the resolved
smallest unit (`TimeDuration::round` over the normalized value, `duration.rs`
missing): the total is rounded by the Rounding Engine to a multiple of
`increment × the unit's nanosecond scale`. -/
def NormalizedTimeDuration.round (n : NormalizedTimeDuration)
    (resolved : ResolvedRoundingOptions) :
    TemporalResult NormalizedTimeDuration :=
  match resolved.smallest_unit.nsPer with
  | none => .error .range
  | some scale =>
    let t := roundNumberToIncrement n.total (resolved.increment * scale)
      resolved.rounding_mode
    .ok ⟨t.tdiv 1000000000, t.tmod 1000000000⟩

/-- Modelled from the spec: `TimeDuration::from_normalized(largest_unit)` —
"balances the exact pair back up into whichever of (hours, minutes, seconds,
milliseconds, microseconds, nanoseconds) is ≤ largest_unit", the top field
unconstrained, every field below range-bound to its natural modulus; all
components share the total's sign (truncated division).  The source also
returns a day-overflow first component that every call site in the snapshot
discards, so it is not modelled.  Calendar units and `Auto` never reach this
function from the snapshot's call sites. -/
def TimeDuration.from_normalized (n : NormalizedTimeDuration)
    (largest : TemporalUnit) : TemporalResult TimeDuration :=
  let t := n.total
  match largest with
  | .hour =>
    let r1 := t.tmod 3600000000000
    let r2 := r1.tmod 60000000000
    let r3 := r2.tmod 1000000000
    let r4 := r3.tmod 1000000
    .ok ⟨t.tdiv 3600000000000, r1.tdiv 60000000000, r2.tdiv 1000000000,
      r3.tdiv 1000000, r4.tdiv 1000, r4.tmod 1000⟩
  | .minute =>
    let r2 := t.tmod 60000000000
    let r3 := r2.tmod 1000000000
    let r4 := r3.tmod 1000000
    .ok ⟨0, t.tdiv 60000000000, r2.tdiv 1000000000,
      r3.tdiv 1000000, r4.tdiv 1000, r4.tmod 1000⟩
  | .second =>
    let r3 := t.tmod 1000000000
    let r4 := r3.tmod 1000000
    .ok ⟨0, 0, t.tdiv 1000000000, r3.tdiv 1000000, r4.tdiv 1000, r4.tmod 1000⟩
  | .millisecond =>
    let r4 := t.tmod 1000000
    .ok ⟨0, 0, 0, t.tdiv 1000000, r4.tdiv 1000, r4.tmod 1000⟩
  | .microsecond =>
    .ok ⟨0, 0, 0, 0, t.tdiv 1000, t.tmod 1000⟩
  | .nanosecond =>
    .ok ⟨0, 0, 0, 0, 0, t⟩
  | _ => .error .range

/-- Modelled from the spec: the date part of a `Duration`
(years/months/weeks/days, passed through opaquely). -/
structure DateDuration where
  years : Int
  months : Int
  weeks : Int
  days : Int
  deriving DecidableEq

/-- Modelled from the spec: component-wise sign flip of the date part. -/
def DateDuration.negated (d : DateDuration) : DateDuration :=
  ⟨-d.years, -d.months, -d.weeks, -d.days⟩

/-- Modelled from the spec: `Duration` — "composite of a date part ... and a
`TimeDuration`". -/
structure Duration where
  date : DateDuration
  time : TimeDuration
  deriving DecidableEq

/-- Modelled from the spec: `Duration::is_time_duration` — the date part is
zero (the `is_time_duration()` guard of the spec's data model). -/
def Duration.is_time_duration (d : Duration) : Bool :=
  decide (d.date = ⟨0, 0, 0, 0⟩)

/-- `From<TimeDuration> for Duration`: a duration with a zero date part. -/
def Duration.fromTime (t : TimeDuration) : Duration := ⟨⟨0, 0, 0, 0⟩, t⟩

/-- `Duration::negated`: component-wise sign flip of both parts. -/
def Duration.negated (d : Duration) : Duration :=
  ⟨d.date.negated, d.time.negated⟩

/-- Modelled from the spec: `NS_MAX_INSTANT` (`lib.rs` missing from the
snapshot) — the fixed symmetric epoch-nanosecond bound, "roughly
±8.64×10^21" (10^8 days of 86,400 × 10^9 nanoseconds). -/
def NS_MAX_INSTANT : Int := 8640000000000000000000

/-- Modelled from the spec: `NS_MIN_INSTANT`, the symmetric lower bound. -/
def NS_MIN_INSTANT : Int := -8640000000000000000000

/-- Modelled from the spec: `NS_PER_DAY` (nanoseconds per day). -/
def NS_PER_DAY : Nat := 86400000000000

/-- Modelled from the spec: `MS_PER_DAY` (milliseconds per day). -/
def MS_PER_DAY : Nat := 86400000

/-- Binary bit length of a natural number, by structural fuel recursion so
that the kernel can evaluate it; the fuel `1100` exceeds the binary length
of every magnitude this embedding manipulates (and of every finite `f64`). -/
def bitLenAux : Nat → Nat → Nat
  | 0, _ => 0
  | fuel + 1, n => if n = 0 then 0 else bitLenAux fuel (n / 2) + 1

/-- Binary bit length: `bitLen a` is the least `L` with `a < 2 ^ L`. -/
def bitLen (a : Nat) : Nat := bitLenAux 1100 a

/-- IEEE binary64 rounding of an integer value (round to nearest, ties to
even): integers of magnitude at most `2^53` are exactly representable and
returned unchanged; a larger magnitude of binary length `L` is rounded to
the nearest multiple of its unit in the last place `2^(L-53)`, ties going
to the even multiple.  Overflow to infinity (magnitudes ≥ 2^1024) never
survives the epoch-range check that follows every use. -/
def roundToF64 (n : Int) : Int :=
  if n.natAbs ≤ 2 ^ 53 then n
  else
    let p := 2 ^ (bitLen n.natAbs - 53)
    let q := n.natAbs / p
    let r := n.natAbs % p
    let rounded :=
      (if 2 * r < p then q
        else if p < 2 * r then q + 1
        else if q % 2 = 0 then q else q + 1) * p
    if n < 0 then -(rounded : Int) else (rounded : Int)

/-- `Instant`: an exact point on the epoch-nanosecond timeline; the `BigInt`
field is modelled as `Int`. -/
structure Instant where
  nanos : Int
  deriving DecidableEq

/-- `is_valid_epoch_nanos` (`instant.rs:281-283`): the nanos lie within
`[NS_MIN_INSTANT, NS_MAX_INSTANT]`. -/
def is_valid_epoch_nanos (n : Int) : Bool :=
  decide (n ≤ NS_MAX_INSTANT) && decide (NS_MIN_INSTANT ≤ n)

/-- `Instant::new` (`instant.rs:155-161`): validated construction, failing
`RangeError` outside the epoch range. -/
def Instant.new (n : Int) : TemporalResult Instant :=
  if is_valid_epoch_nanos n then .ok ⟨n⟩ else .error .range

/-- `Instant::epoch_nanoseconds` / `to_f64`, modelled exactly. -/
def Instant.epoch_nanoseconds (i : Instant) : Int := i.nanos

/-- `Instant::add_to_instant` (`instant.rs:35-47`): the sum is computed in
`f64` over the `to_f64`'d epoch nanoseconds, in the source's summand order
and parenthesization — `to_f64`, each scaled-component product, and each
partial sum is an IEEE binary64 operation and is therefore the correctly
rounded exact result (`roundToF64`; every value on this path is
integer-valued, component magnitudes being integral).  `BigInt::from_f64`
on the integer-valued result is the identity (it fails only on non-finite
values, and any overflowed magnitude fails the same `RangeError` path via
`new`); reconstruction is via `new`. -/
def Instant.add_to_instant (i : Instant) (d : TimeDuration) :
    TemporalResult Instant :=
  Instant.new (roundToF64 (roundToF64 (roundToF64 (roundToF64 (roundToF64
    (roundToF64 (roundToF64 i.nanos + d.nanoseconds) +
      roundToF64 (d.microseconds * 1000)) +
      roundToF64 (d.milliseconds * 1000000)) +
      roundToF64 (d.seconds * 1000000000)) +
      roundToF64 (d.minutes * 60000000000)) +
      roundToF64 (d.hours * 3600000000000)))

/-- `Instant::add_time_duration` (`instant.rs:176-178`). -/
def Instant.add_time_duration (i : Instant) (d : TimeDuration) :
    TemporalResult Instant :=
  i.add_to_instant d

/-- `Instant::subtract_time_duration` (`instant.rs:193-195`): addition of
the negated duration. -/
def Instant.subtract_time_duration (i : Instant) (d : TimeDuration) :
    TemporalResult Instant :=
  i.add_to_instant d.negated

/-- `Instant::add` (`instant.rs:166-172`): `RangeError` when the duration
carries a date part. -/
def Instant.add (i : Instant) (d : Duration) : TemporalResult Instant :=
  if d.is_time_duration then i.add_time_duration d.time else .error .range

/-- `Instant::subtract` (`instant.rs:183-189`). -/
def Instant.subtract (i : Instant) (d : Duration) : TemporalResult Instant :=
  if d.is_time_duration then i.subtract_time_duration d.time
  else .error .range

/-- `Instant::diff_instant` (`instant.rs:54-96`): the raw delta is
decomposed by truncated division with Euclidean remainders, the settings are
resolved (falling back to `Second`/`Nanosecond`), and — exactly as in the
source — the branch on `smallest_unit == Nanosecond` returns the balanced
but *unrounded* result regardless of the resolved increment, and the
resolved sign is never applied (the source binds it and leaves it unused). -/
def Instant.diff_instant (i : Instant) (op : DifferenceOperation)
    (other : Instant) (s : DifferenceSettings) : TemporalResult TimeDuration :=
  let diff := i.epoch_nanoseconds - other.epoch_nanoseconds
  let nanos := diff.emod 1000
  let micros := (diff.tdiv 1000).emod 1000
  let millis := (diff.tdiv 1000000).emod 1000
  let secs := diff.tdiv 1000000000
  match ResolvedRoundingOptions.from_diff_settings s op .second .nanosecond with
  | .error e => .error e
  | .ok (_, resolved) =>
    if resolved.smallest_unit = TemporalUnit.nanosecond then
      TimeDuration.from_normalized
        (TimeDuration.to_normalized ⟨0, 0, secs, millis, micros, nanos⟩)
        resolved.largest_unit
    else
      match TimeDuration.new 0 0 secs millis micros nanos with
      | .error e => .error e
      | .ok td =>
        match NormalizedTimeDuration.round td.to_normalized resolved with
        | .error e => .error e
        | .ok norm => TimeDuration.from_normalized norm resolved.largest_unit

/-- `Instant::since` (`instant.rs:199-205`). -/
def Instant.since (i other : Instant) (s : DifferenceSettings) :
    TemporalResult TimeDuration :=
  i.diff_instant .since other s

/-- `Instant::until` (`instant.rs:209-215`). -/
def Instant.until (i other : Instant) (s : DifferenceSettings) :
    TemporalResult TimeDuration :=
  i.diff_instant .until other s

/-- `Instant::round_instant` (`instant.rs:99-136`): the increment is scaled
into nanoseconds per unit (calendar units fail `RangeError`), checked
against the `u128` multiplication bound, and the value is rounded by the
engine's *positive* path; `BigInt::from_u64` then forces the result through
an unsigned 64-bit magnitude. -/
def Instant.round_instant (i : Instant) (inc : Nat) (unit : TemporalUnit)
    (mode : TemporalRoundingMode) : TemporalResult Int :=
  match unit.nsPer with
  | none => .error .range
  | some scale =>
    let scaled := inc * scale
    if scaled < 2 ^ 128 then
      let rounded := roundAsPositive i.epoch_nanoseconds scaled mode
      if rounded < 2 ^ 64 then .ok (rounded : Int) else .error .range
    else .error .range

/-- `Instant::round` (`instant.rs:218-240`): default increment 1 and mode
`HalfExpand`, per-unit day-relative maximum (calendar units fail
`RangeError`), inclusive increment validation, rounding, reconstruction via
`new`. -/
def Instant.round (i : Instant) (increment : Option Int)
    (unit : TemporalUnit) (rounding_mode : Option TemporalRoundingMode) :
    TemporalResult Instant :=
  match RoundingIncrement.try_from (increment.getD 1) with
  | .error e => .error e
  | .ok inc =>
    let mode := rounding_mode.getD .halfExpand
    match (match unit with
      | .hour => some 24
      | .minute => some (24 * 60)
      | .second => some (24 * 3600)
      | .millisecond => some MS_PER_DAY
      | .microsecond => some (MS_PER_DAY * 1000)
      | .nanosecond => some NS_PER_DAY
      | _ => none) with
    | none => .error .range
    | some maximum =>
      match RoundingIncrement.validate inc maximum true with
      | .error e => .error e
      | .ok _ =>
        match i.round_instant inc unit mode with
        | .error e => .error e
        | .ok r => Instant.new r

/-- Clamp an integer into `[lo, hi]` (the spec's `Constrain` policy, applied
to each field in isolation). -/
def clampField (lo hi x : Int) : Int := max lo (min hi x)

/-- `IsoTime` (`iso.rs` missing from the snapshot): the six wall-clock
fields; the `u8`/`u16` fields are modelled as `Int` together with the
validity predicate below. -/
structure IsoTime where
  hour : Int
  minute : Int
  second : Int
  millisecond : Int
  microsecond : Int
  nanosecond : Int
  deriving DecidableEq

/-- Modelled from the spec: `IsoTime::is_valid` — "all fields
simultaneously in range" (`hour 0-23`, `minute/second 0-59`,
`millisecond/microsecond/nanosecond 0-999`). -/
def IsoTime.is_valid (t : IsoTime) : Bool :=
  decide ((0 ≤ t.hour ∧ t.hour ≤ 23) ∧ (0 ≤ t.minute ∧ t.minute ≤ 59) ∧
    (0 ≤ t.second ∧ t.second ≤ 59) ∧
    (0 ≤ t.millisecond ∧ t.millisecond ≤ 999) ∧
    (0 ≤ t.microsecond ∧ t.microsecond ≤ 999) ∧
    (0 ≤ t.nanosecond ∧ t.nanosecond ≤ 999))

/-- Modelled from the spec: `IsoTime::new` (`iso.rs` missing) —
"`Constrain` clamps each field into its valid range in isolation (no
carrying between fields); `Reject` fails `RangeError` if any field is out
of range". -/
def IsoTime.new (h mi s ms us ns : Int) (overflow : ArithmeticOverflow) :
    TemporalResult IsoTime :=
  match overflow with
  | .constrain =>
    .ok ⟨clampField 0 23 h, clampField 0 59 mi, clampField 0 59 s,
      clampField 0 999 ms, clampField 0 999 us, clampField 0 999 ns⟩
  | .reject =>
    let t : IsoTime := ⟨h, mi, s, ms, us, ns⟩
    if t.is_valid then .ok t else .error .range

/-- Modelled from the spec: `IsoTime::balance` (`iso.rs` missing) — carries
overflow upward "through the full chain
nanosecond→microsecond→millisecond→second→minute→hour" with floor division
and non-negative (Euclidean) remainders at each step, and returns the
signed overflow day count alongside the wrapped-into-range time. -/
def IsoTime.balance (hour minute second millisecond microsecond
    nanosecond : Int) : Int × IsoTime :=
  let microsecond := microsecond + nanosecond.ediv 1000
  let nanosecond := nanosecond.emod 1000
  let millisecond := millisecond + microsecond.ediv 1000
  let microsecond := microsecond.emod 1000
  let second := second + millisecond.ediv 1000
  let millisecond := millisecond.emod 1000
  let minute := minute + second.ediv 60
  let second := second.emod 60
  let hour := hour + minute.ediv 60
  let minute := minute.emod 60
  let day := hour.ediv 24
  let hour := hour.emod 24
  (day, ⟨hour, minute, second, millisecond, microsecond, nanosecond⟩)

/-- Modelled from the spec: `IsoTime::diff` (`iso.rs` missing) — "the exact
field-wise difference"; oriented so that `self.diff(other)` is
`other − self`, matching the snapshot's `since`/`until` tests
(`time.rs:526-577`). -/
def IsoTime.diff (t other : IsoTime) : TimeDuration :=
  ⟨other.hour - t.hour, other.minute - t.minute, other.second - t.second,
    other.millisecond - t.millisecond, other.microsecond - t.microsecond,
    other.nanosecond - t.nanosecond⟩

/-- The wall-clock time as total nanoseconds of day. -/
def IsoTime.to_nanoseconds (t : IsoTime) : Int :=
  t.hour * 3600000000000 + t.minute * 60000000000 + t.second * 1000000000 +
    t.millisecond * 1000000 + t.microsecond * 1000 + t.nanosecond

/-- Modelled from the spec: `IsoTime::round` (`iso.rs` missing) — the
nanoseconds-of-day total is rounded by the Rounding Engine to a multiple of
`increment × the unit's nanosecond scale` (a non-time smallest unit fails
`RangeError`), and the rounded total is balanced back into a day count and
a wrapped-into-range time. -/
def IsoTime.round (t : IsoTime) (resolved : ResolvedRoundingOptions) :
    TemporalResult (Int × IsoTime) :=
  match resolved.smallest_unit.nsPer with
  | none => .error .range
  | some scale =>
    let rounded := roundNumberToIncrement t.to_nanoseconds
      (resolved.increment * scale) resolved.rounding_mode
    let rem := rounded.emod (NS_PER_DAY : Int)
    let r1 := rem.emod 3600000000000
    let r2 := r1.emod 60000000000
    let r3 := r2.emod 1000000000
    let r4 := r3.emod 1000000
    .ok (rounded.ediv (NS_PER_DAY : Int),
      ⟨rem.ediv 3600000000000, r1.ediv 60000000000, r2.ediv 1000000000,
        r3.ediv 1000000, r4.ediv 1000, r4.emod 1000⟩)

/-- `PartialTime` (`time.rs:21-34`): potentially set `i32` fields. -/
structure PartialTime where
  hour : Option Int := none
  minute : Option Int := none
  second : Option Int := none
  millisecond : Option Int := none
  microsecond : Option Int := none
  nanosecond : Option Int := none
  deriving DecidableEq

/-- `PartialTime::is_empty` (`time.rs:37-39`): equality with the default
(all fields unset). -/
def PartialTime.is_empty (p : PartialTime) : Bool :=
  decide (p = ⟨none, none, none, none, none, none⟩)

/-- Modelled from the spec: `IsoTime::with` (`iso.rs` missing) — "overlays
only present fields onto current values, then re-validates as a full
construction" under the given overflow policy. -/
def IsoTime.with (t : IsoTime) (p : PartialTime)
    (overflow : ArithmeticOverflow) : TemporalResult IsoTime :=
  IsoTime.new (p.hour.getD t.hour) (p.minute.getD t.minute)
    (p.second.getD t.second) (p.millisecond.getD t.millisecond)
    (p.microsecond.getD t.microsecond) (p.nanosecond.getD t.nanosecond)
    overflow

/-- `PlainTime` (`time.rs:45-47`): a validated wall-clock time. -/
structure PlainTime where
  iso : IsoTime
  deriving DecidableEq

/-- `PlainTime::hour` accessor. -/
def PlainTime.hour (t : PlainTime) : Int := t.iso.hour

/-- `PlainTime::minute` accessor. -/
def PlainTime.minute (t : PlainTime) : Int := t.iso.minute

/-- `PlainTime::second` accessor. -/
def PlainTime.second (t : PlainTime) : Int := t.iso.second

/-- `PlainTime::millisecond` accessor. -/
def PlainTime.millisecond (t : PlainTime) : Int := t.iso.millisecond

/-- `PlainTime::microsecond` accessor. -/
def PlainTime.microsecond (t : PlainTime) : Int := t.iso.microsecond

/-- `PlainTime::nanosecond` accessor. -/
def PlainTime.nanosecond (t : PlainTime) : Int := t.iso.nanosecond

/-- `PlainTime::new_with_overflow` (`time.rs:203-222`). -/
def PlainTime.new_with_overflow (h mi s ms us ns : Int)
    (overflow : ArithmeticOverflow) : TemporalResult PlainTime :=
  match IsoTime.new h mi s ms us ns overflow with
  | .error e => .error e
  | .ok t => .ok ⟨t⟩

/-- `PlainTime::new` (`time.rs:162-179`): construction with `Constrain`. -/
def PlainTime.new (h mi s ms us ns : Int) : TemporalResult PlainTime :=
  PlainTime.new_with_overflow h mi s ms us ns .constrain

/-- `PlainTime::try_new` (`time.rs:182-199`): construction with `Reject`. -/
def PlainTime.try_new (h mi s ms us ns : Int) : TemporalResult PlainTime :=
  PlainTime.new_with_overflow h mi s ms us ns .reject

/-- `PlainTime::with` (`time.rs:224-237`): `TypeError` on an empty field
set, otherwise overlay and re-validation (defaulting to `Constrain`). -/
def PlainTime.with (t : PlainTime) (p : PartialTime)
    (overflow : Option ArithmeticOverflow) : TemporalResult PlainTime :=
  if p.is_empty then .error .type
  else
    match t.iso.with p (overflow.getD .constrain) with
    | .error e => .error e
    | .ok iso => .ok ⟨iso⟩

/-- `PlainTime::add_to_time` (`time.rs:87-110`): each time component of the
duration is added to the matching field (`FiniteF64::checked_add` modelled
as exact, total integer addition) and the sums are balanced; the source
discards the day count of `IsoTime::balance` and returns only the
wrapped-into-range time. -/
def PlainTime.add_to_time (t : PlainTime) (d : TimeDuration) : PlainTime :=
  ⟨(IsoTime.balance (t.hour + d.hours) (t.minute + d.minutes)
      (t.second + d.seconds) (t.millisecond + d.milliseconds)
      (t.microsecond + d.microseconds) (t.nanosecond + d.nanoseconds)).2⟩

/-- `PlainTime::add_time_duration` (`time.rs:292-294`). -/
def PlainTime.add_time_duration (t : PlainTime) (d : TimeDuration) :
    PlainTime :=
  t.add_to_time d

/-- `PlainTime::subtract_time_duration` (`time.rs:307-309`): addition of
the negated duration. -/
def PlainTime.subtract_time_duration (t : PlainTime) (d : TimeDuration) :
    PlainTime :=
  t.add_to_time d.negated

/-- `PlainTime::add` (`time.rs:282-288`): `RangeError` when the duration
carries a date part. -/
def PlainTime.add (t : PlainTime) (d : Duration) : TemporalResult PlainTime :=
  if d.is_time_duration then .ok (t.add_time_duration d.time)
  else .error .range

/-- `PlainTime::subtract` (`time.rs:297-303`). -/
def PlainTime.subtract (t : PlainTime) (d : Duration) :
    TemporalResult PlainTime :=
  if d.is_time_duration then .ok (t.subtract_time_duration d.time)
  else .error .range

/-- `PlainTime::diff_time` (`time.rs:114-155`): resolve the settings
(falling back to `Hour`/`Nanosecond`), normalize the field-wise difference,
round unless the settings are nanosecond-exact with increment 1, balance
into the largest unit, and apply the resolved sign (`Since` negates the
whole result). -/
def PlainTime.diff_time (t : PlainTime) (op : DifferenceOperation)
    (other : PlainTime) (s : DifferenceSettings) : TemporalResult Duration :=
  match ResolvedRoundingOptions.from_diff_settings s op .hour .nanosecond with
  | .error e => .error e
  | .ok (sign, resolved) =>
    let norm0 := (IsoTime.diff t.iso other.iso).to_normalized
    match (if resolved.smallest_unit ≠ TemporalUnit.nanosecond ∨
        resolved.increment ≠ 1
      then NormalizedTimeDuration.round norm0 resolved
      else .ok norm0) with
    | .error e => .error e
    | .ok norm =>
      match TimeDuration.from_normalized norm resolved.largest_unit with
      | .error e => .error e
      | .ok result =>
        match sign with
        | .positive | .zero => .ok (Duration.fromTime result)
        | .negative => .ok (Duration.fromTime result.negated)

/-- `PlainTime::until` (`time.rs:315-317`). -/
def PlainTime.until (t other : PlainTime) (s : DifferenceSettings) :
    TemporalResult Duration :=
  t.diff_time .until other s

/-- `PlainTime::since` (`time.rs:323-325`). -/
def PlainTime.since (t other : PlainTime) (s : DifferenceSettings) :
    TemporalResult Duration :=
  t.diff_time .since other s

/-- `PlainTime::round` (`time.rs:329-357`): validated increment (defaulting
to 1) bounded by the unit's maximum rounding increment (non-inclusive, must
divide evenly; a non-time unit fails `RangeError`), mode defaulting to
`HalfExpand`, then `IsoTime::round` with `Auto` as the largest unit,
discarding the day count. -/
def PlainTime.round (t : PlainTime) (smallest_unit : TemporalUnit)
    (rounding_increment : Option Int)
    (rounding_mode : Option TemporalRoundingMode) : TemporalResult PlainTime :=
  match RoundingIncrement.try_from (rounding_increment.getD 1) with
  | .error e => .error e
  | .ok inc =>
    let mode := rounding_mode.getD .halfExpand
    match smallest_unit.to_maximum_rounding_increment with
    | none => .error .range
    | some maxInc =>
      match RoundingIncrement.validate inc maxInc false with
      | .error e => .error e
      | .ok _ =>
        let resolved : ResolvedRoundingOptions :=
          ⟨.auto, inc, smallest_unit, mode⟩
        match t.iso.round resolved with
        | .error e => .error e
        | .ok (_, result) => .ok ⟨result⟩

namespace ffi

/-- The bridge-layer `ArithmeticOverflow` (`temporal_capi/src/options.rs:8-12`). -/
inductive ArithmeticOverflow
  | constrain
  | reject
  deriving DecidableEq

/-- Ordinal (declaration order) of the bridge `ArithmeticOverflow`. -/
def ArithmeticOverflow.ordinal : ArithmeticOverflow → Nat
  | .constrain => 0
  | .reject => 1

/-- The `enum_convert` mapping of the bridge `ArithmeticOverflow` onto the
core enumeration (name-wise). -/
def ArithmeticOverflow.toCore : ArithmeticOverflow → Temporal.ArithmeticOverflow
  | .constrain => .constrain
  | .reject => .reject

/-- The inverse name-wise mapping, core to bridge. -/
def ArithmeticOverflow.ofCore : Temporal.ArithmeticOverflow → ArithmeticOverflow
  | .constrain => .constrain
  | .reject => .reject

/-- The bridge-layer `TemporalRoundingMode`
(`temporal_capi/src/options.rs:56-67`): the nine members in declaration
order. -/
inductive TemporalRoundingMode
  | ceil
  | floor
  | expand
  | trunc
  | halfCeil
  | halfFloor
  | halfExpand
  | halfTrunc
  | halfEven
  deriving DecidableEq

/-- Ordinal (declaration order) of the bridge `TemporalRoundingMode`. -/
def TemporalRoundingMode.ordinal : TemporalRoundingMode → Nat
  | .ceil => 0
  | .floor => 1
  | .expand => 2
  | .trunc => 3
  | .halfCeil => 4
  | .halfFloor => 5
  | .halfExpand => 6
  | .halfTrunc => 7
  | .halfEven => 8

/-- The `enum_convert` mapping of the bridge `TemporalRoundingMode` onto the
core enumeration (name-wise). -/
def TemporalRoundingMode.toCore :
    TemporalRoundingMode → Temporal.TemporalRoundingMode
  | .ceil => .ceil
  | .floor => .floor
  | .expand => .expand
  | .trunc => .trunc
  | .halfCeil => .halfCeil
  | .halfFloor => .halfFloor
  | .halfExpand => .halfExpand
  | .halfTrunc => .halfTrunc
  | .halfEven => .halfEven

/-- The inverse name-wise mapping, core to bridge. -/
def TemporalRoundingMode.ofCore :
    Temporal.TemporalRoundingMode → TemporalRoundingMode
  | .ceil => .ceil
  | .floor => .floor
  | .expand => .expand
  | .trunc => .trunc
  | .halfCeil => .halfCeil
  | .halfFloor => .halfFloor
  | .halfExpand => .halfExpand
  | .halfTrunc => .halfTrunc
  | .halfEven => .halfEven

/-- The bridge-layer `TemporalUnit` (`temporal_capi/src/options.rs:69-82`)
with its explicit discriminants `Auto = 0 .. Year = 10`. -/
inductive TemporalUnit
  | auto
  | nanosecond
  | microsecond
  | millisecond
  | second
  | minute
  | hour
  | day
  | week
  | month
  | year
  deriving DecidableEq

/-- The explicit discriminants `0-10` of the bridge `TemporalUnit`. -/
def TemporalUnit.ordinal : TemporalUnit → Nat
  | .auto => 0
  | .nanosecond => 1
  | .microsecond => 2
  | .millisecond => 3
  | .second => 4
  | .minute => 5
  | .hour => 6
  | .day => 7
  | .week => 8
  | .month => 9
  | .year => 10

/-- The `enum_convert` mapping of the bridge `TemporalUnit` onto the core
enumeration (name-wise). -/
def TemporalUnit.toCore : TemporalUnit → Temporal.TemporalUnit
  | .auto => .auto
  | .nanosecond => .nanosecond
  | .microsecond => .microsecond
  | .millisecond => .millisecond
  | .second => .second
  | .minute => .minute
  | .hour => .hour
  | .day => .day
  | .week => .week
  | .month => .month
  | .year => .year

/-- The inverse name-wise mapping, core to bridge. -/
def TemporalUnit.ofCore : Temporal.TemporalUnit → TemporalUnit
  | .auto => .auto
  | .nanosecond => .nanosecond
  | .microsecond => .microsecond
  | .millisecond => .millisecond
  | .second => .second
  | .minute => .minute
  | .hour => .hour
  | .day => .day
  | .week => .week
  | .month => .month
  | .year => .year

end ffi

/-! ## Helper lemmas -/

/-- `Instant::new` characterized by the epoch-nanosecond bounds. -/
theorem Instant.new_eq (n : Int) :
    Instant.new n =
      if NS_MIN_INSTANT ≤ n ∧ n ≤ NS_MAX_INSTANT then .ok ⟨n⟩
      else .error .range := by
  unfold Instant.new is_valid_epoch_nanos
  have hb : ((decide (n ≤ NS_MAX_INSTANT) && decide (NS_MIN_INSTANT ≤ n))
      = true) ↔ (NS_MIN_INSTANT ≤ n ∧ n ≤ NS_MAX_INSTANT) := by
    simp [Bool.and_eq_true, and_comm]
  split_ifs with h1 h2 h2
  · rfl
  · exact absurd (hb.mp h1) h2
  · exact absurd (hb.mpr h2) h1
  · rfl

/-- Integers within the exact range `2^53` of a binary64 are exactly
representable: `roundToF64` leaves them unchanged. -/
theorem roundToF64_eq_self (n : Int) (h : n.natAbs ≤ 2 ^ 53) :
    roundToF64 n = n := by
  unfold roundToF64
  exact if_pos h

/-! ## Claim theorems -/

/-- Claim C6: `Instant::new(n)` succeeds exactly when
`NS_MIN_INSTANT ≤ n ≤ NS_MAX_INSTANT`, storing exactly `n`; both bounds are
accepted and both bounds ± 1 fail with `RangeError`. -/
theorem instant_new_bounds :
    (∀ n : Int, Instant.new n =
      if NS_MIN_INSTANT ≤ n ∧ n ≤ NS_MAX_INSTANT then .ok ⟨n⟩
      else .error .range)
    ∧ Instant.new NS_MAX_INSTANT = .ok ⟨NS_MAX_INSTANT⟩
    ∧ Instant.new NS_MIN_INSTANT = .ok ⟨NS_MIN_INSTANT⟩
    ∧ Instant.new (NS_MAX_INSTANT + 1) = .error .range
    ∧ Instant.new (NS_MIN_INSTANT - 1) = .error .range :=
  ⟨Instant.new_eq, by decide, by decide, by decide, by decide⟩

/-- Claim C7: rounding `PlainTime(3,34,56,987,654,321)` at `Nanosecond` with
the default `HalfExpand` mode yields nanosecond field 325 at increment 25,
250 at increment 250, and 500 at increment 500, the other five fields
unchanged. -/
theorem plaintime_round_nanosecond_increments :
    PlainTime.round ⟨⟨3, 34, 56, 987, 654, 321⟩⟩ .nanosecond (some 25) none
        = .ok ⟨⟨3, 34, 56, 987, 654, 325⟩⟩
    ∧ PlainTime.round ⟨⟨3, 34, 56, 987, 654, 321⟩⟩ .nanosecond (some 250) none
        = .ok ⟨⟨3, 34, 56, 987, 654, 250⟩⟩
    ∧ PlainTime.round ⟨⟨3, 34, 56, 987, 654, 321⟩⟩ .nanosecond (some 500) none
        = .ok ⟨⟨3, 34, 56, 987, 654, 500⟩⟩ :=
  ⟨by decide, by decide, by decide⟩

/-- Claim C3: `PlainTime::add` with a zero-date-part duration adds each time
component and balances upward through the chain
nanosecond→…→hour; the balancing core reports the signed overflow day count
alongside the wrapped-into-range time (the first component of
`IsoTime::balance`, which `add` itself discards).  Concretely,
`PlainTime(15,23,30,123,456,789) + PT16H = PlainTime(7,23,30,123,456,789)`
and the balance of the component sums reports day-overflow `+1`. -/
theorem plaintime_add_balances_day_overflow :
    PlainTime.add ⟨⟨15, 23, 30, 123, 456, 789⟩⟩
        ⟨⟨0, 0, 0, 0⟩, ⟨16, 0, 0, 0, 0, 0⟩⟩
      = .ok ⟨⟨7, 23, 30, 123, 456, 789⟩⟩
    ∧ (IsoTime.balance 31 23 30 123 456 789).1 = 1
    ∧ ∀ (t : PlainTime) (d : TimeDuration),
        PlainTime.add_to_time t d =
          ⟨(IsoTime.balance (t.hour + d.hours) (t.minute + d.minutes)
            (t.second + d.seconds) (t.millisecond + d.milliseconds)
            (t.microsecond + d.microseconds)
            (t.nanosecond + d.nanoseconds)).2⟩ :=
  ⟨by decide, by decide, fun _ _ => rfl⟩

/-- Claim C2 (code bug): rounding the negative instant −3,600,000,000,000 ns
(one hour before the epoch) at unit `Hour`, increment 1, default mode —
whose nearest multiple is the instant itself — instead returns the
*positive* instant +3,600,000,000,000 ns: `round_instant` funnels the value
through the positive-parts rounder and `BigInt::from_u64`, so the sign is
lost. -/
theorem instant_round_negative_epoch_bug :
    Instant.round ⟨-3600000000000⟩ (some 1) .hour none
      = .ok ⟨3600000000000⟩ := by decide

/-- Claim C4 (code bug): with settings resolving to
`smallest_unit = Nanosecond` and rounding increment 100, the difference of
the instants 150 ns and 0 ns is returned as 150 ns — not a multiple of the
increment: `diff_instant` returns the unrounded balance whenever the
smallest unit is `Nanosecond`, ignoring the resolved increment. -/
theorem instant_diff_skips_increment_rounding :
    ResolvedRoundingOptions.from_diff_settings ⟨none, none, none, some 100⟩
        .until .second .nanosecond
      = .ok (.positive, ⟨.second, 100, .nanosecond, .halfExpand⟩)
    ∧ Instant.until ⟨150⟩ ⟨0⟩ ⟨none, none, none, some 100⟩
      = .ok ⟨0, 0, 0, 0, 0, 150⟩
    ∧ (150 : Int).emod 100 ≠ 0 :=
  ⟨by decide, by decide, by decide⟩

/-- Claim C5 (counterexample): for the instants 1,000,000,000 ns and 0 ns
under default settings, `since` is *not* `until` with the sign flipped —
both return the same +1 second. -/
theorem instant_sign_symmetry_counterexample :
    ¬ (Instant.since ⟨1000000000⟩ ⟨0⟩ ⟨none, none, none, none⟩
      = (Instant.until ⟨1000000000⟩ ⟨0⟩ ⟨none, none, none, none⟩).map
          TimeDuration.negated) := by decide

/-- Claim C5 (amended): for `PlainTime`, `a.since(b, s)` equals
`a.until(b, s)` with every component's sign flipped, for every settings
value; for `Instant`, `diff_instant` never applies the resolved sign, so
`since` and `until` coincide instead. -/
theorem diff_sign_symmetry_amended :
    (∀ (a b : PlainTime) (s : DifferenceSettings),
      PlainTime.since a b s = (PlainTime.until a b s).map Duration.negated)
    ∧ (∀ (i j : Instant) (s : DifferenceSettings),
      Instant.since i j s = Instant.until i j s) := by
  constructor
  · intro a b s
    simp only [PlainTime.since, PlainTime.until, PlainTime.diff_time,
      ResolvedRoundingOptions.from_diff_settings, DifferenceOperation.sign]
    cases h : ResolvedRoundingOptions.resolve_diff s .hour .nanosecond with
    | error e => simp [h, Except.map]
    | ok r =>
      simp only [h, Except.map]
      cases h2 : (if r.smallest_unit ≠ TemporalUnit.nanosecond ∨
          r.increment ≠ 1
        then NormalizedTimeDuration.round
          ((IsoTime.diff a.iso b.iso).to_normalized) r
        else .ok ((IsoTime.diff a.iso b.iso).to_normalized)) with
      | error e => rfl
      | ok norm =>
        cases h3 : TimeDuration.from_normalized norm r.largest_unit with
        | error e => simp [h3]
        | ok result =>
          simp [h3, Duration.negated, Duration.fromTime, DateDuration.negated]
  · intro i j s
    simp only [Instant.since, Instant.until, Instant.diff_instant,
      ResolvedRoundingOptions.from_diff_settings, DifferenceOperation.sign]
    cases h : ResolvedRoundingOptions.resolve_diff s .second .nanosecond with
    | error e => rfl
    | ok r => rfl

set_option maxRecDepth 10000 in
set_option maxHeartbeats 1000000 in
/-- Claim C1 (counterexample): `Instant::add` does not compute the exact
sum.  Adding the zero time duration to the valid instant `2^53 + 1` ns
returns `2^53` ns — `to_f64` rounds the epoch nanoseconds to the nearest
double — and adding 100 ns to `Instant(NS_MAX_INSTANT)` *succeeds* with
`NS_MAX_INSTANT` unchanged (the 100 ns vanish below the f64 ulp), where the
claim demands the exact out-of-range sum to fail with `RangeError`. -/
theorem instant_add_exactness_counterexample :
    Instant.add ⟨9007199254740993⟩ ⟨⟨0, 0, 0, 0⟩, ⟨0, 0, 0, 0, 0, 0⟩⟩
        = .ok ⟨9007199254740992⟩
    ∧ ¬ (Instant.add ⟨9007199254740993⟩ ⟨⟨0, 0, 0, 0⟩, ⟨0, 0, 0, 0, 0, 0⟩⟩
        = .ok ⟨9007199254740993⟩)
    ∧ Instant.add ⟨NS_MAX_INSTANT⟩ ⟨⟨0, 0, 0, 0⟩, ⟨0, 0, 0, 0, 0, 100⟩⟩
        = .ok ⟨NS_MAX_INSTANT⟩ :=
  ⟨by decide, by decide, by decide⟩

/-- Claim C1 (amended): a duration with a non-zero date part fails
`RangeError`; with a zero date part the sum is computed in `f64`, so it is
the *correctly rounded*, not the exact, sum — but whenever the epoch
nanoseconds plus the total scaled component magnitude stay within `2^53`
(the exact-integer range of a double), `add` (resp. `subtract`) returns
exactly `epoch_ns + Σ(component × scale)` (resp. minus the sum), failing
`RangeError` precisely when that exact result leaves
`[NS_MIN_INSTANT, NS_MAX_INSTANT]`. -/
theorem instant_add_subtract_exact_within_f64 (i : Instant) (d : Duration) :
    (¬ d.is_time_duration →
      i.add d = .error .range ∧ i.subtract d = .error .range)
    ∧ (d.is_time_duration →
      i.nanos.natAbs + d.time.nanoseconds.natAbs +
          (d.time.microseconds * 1000).natAbs +
          (d.time.milliseconds * 1000000).natAbs +
          (d.time.seconds * 1000000000).natAbs +
          (d.time.minutes * 60000000000).natAbs +
          (d.time.hours * 3600000000000).natAbs ≤ 2 ^ 53 →
      (i.add d =
        if NS_MIN_INSTANT ≤ i.nanos + d.time.total_nanoseconds ∧
            i.nanos + d.time.total_nanoseconds ≤ NS_MAX_INSTANT
        then .ok ⟨i.nanos + d.time.total_nanoseconds⟩ else .error .range)
      ∧ (i.subtract d =
        if NS_MIN_INSTANT ≤ i.nanos - d.time.total_nanoseconds ∧
            i.nanos - d.time.total_nanoseconds ≤ NS_MAX_INSTANT
        then .ok ⟨i.nanos - d.time.total_nanoseconds⟩ else .error .range)) := by
  constructor
  · intro h
    have hb : d.is_time_duration = false := by
      cases hd : d.is_time_duration
      · rfl
      · exact absurd hd h
    constructor
    · unfold Instant.add
      rw [hb]
      rfl
    · unfold Instant.subtract
      rw [hb]
      rfl
  · intro h hbound
    have c1 : i.nanos.natAbs + d.time.nanoseconds.natAbs ≤ 2 ^ 53 := by
      omega
    have c2 : i.nanos.natAbs + d.time.nanoseconds.natAbs +
        (d.time.microseconds * 1000).natAbs ≤ 2 ^ 53 := by omega
    have c3 : i.nanos.natAbs + d.time.nanoseconds.natAbs +
        (d.time.microseconds * 1000).natAbs +
        (d.time.milliseconds * 1000000).natAbs ≤ 2 ^ 53 := by omega
    have c4 : i.nanos.natAbs + d.time.nanoseconds.natAbs +
        (d.time.microseconds * 1000).natAbs +
        (d.time.milliseconds * 1000000).natAbs +
        (d.time.seconds * 1000000000).natAbs ≤ 2 ^ 53 := by omega
    have c5 : i.nanos.natAbs + d.time.nanoseconds.natAbs +
        (d.time.microseconds * 1000).natAbs +
        (d.time.milliseconds * 1000000).natAbs +
        (d.time.seconds * 1000000000).natAbs +
        (d.time.minutes * 60000000000).natAbs ≤ 2 ^ 53 := by omega
    have c6 : i.nanos.natAbs + d.time.nanoseconds.natAbs +
        (d.time.microseconds * 1000).natAbs +
        (d.time.milliseconds * 1000000).natAbs +
        (d.time.seconds * 1000000000).natAbs +
        (d.time.minutes * 60000000000).natAbs +
        (d.time.hours * 3600000000000).natAbs ≤ 2 ^ 53 := by omega
    constructor
    · have hadd : i.add d = i.add_to_instant d.time := by
        unfold Instant.add
        rw [if_pos h]
        rfl
      rw [hadd]
      unfold Instant.add_to_instant
      have e0 : roundToF64 i.nanos = i.nanos :=
        roundToF64_eq_self _ (by omega)
      have p2 : roundToF64 (d.time.microseconds * 1000) =
          d.time.microseconds * 1000 := roundToF64_eq_self _ (by omega)
      have p3 : roundToF64 (d.time.milliseconds * 1000000) =
          d.time.milliseconds * 1000000 := roundToF64_eq_self _ (by omega)
      have p4 : roundToF64 (d.time.seconds * 1000000000) =
          d.time.seconds * 1000000000 := roundToF64_eq_self _ (by omega)
      have p5 : roundToF64 (d.time.minutes * 60000000000) =
          d.time.minutes * 60000000000 := roundToF64_eq_self _ (by omega)
      have p6 : roundToF64 (d.time.hours * 3600000000000) =
          d.time.hours * 3600000000000 := roundToF64_eq_self _ (by omega)
      rw [e0, p2, p3, p4, p5, p6]
      have hX1 := Int.natAbs_add_le i.nanos d.time.nanoseconds
      rw [roundToF64_eq_self _ (le_trans hX1 c1)]
      have hX2 := le_trans
        (Int.natAbs_add_le (i.nanos + d.time.nanoseconds)
          (d.time.microseconds * 1000))
        (Nat.add_le_add_right hX1 _)
      rw [roundToF64_eq_self _ (le_trans hX2 c2)]
      have hX3 := le_trans
        (Int.natAbs_add_le
          (i.nanos + d.time.nanoseconds + d.time.microseconds * 1000)
          (d.time.milliseconds * 1000000))
        (Nat.add_le_add_right hX2 _)
      rw [roundToF64_eq_self _ (le_trans hX3 c3)]
      have hX4 := le_trans
        (Int.natAbs_add_le
          (i.nanos + d.time.nanoseconds + d.time.microseconds * 1000 +
            d.time.milliseconds * 1000000)
          (d.time.seconds * 1000000000))
        (Nat.add_le_add_right hX3 _)
      rw [roundToF64_eq_self _ (le_trans hX4 c4)]
      have hX5 := le_trans
        (Int.natAbs_add_le
          (i.nanos + d.time.nanoseconds + d.time.microseconds * 1000 +
            d.time.milliseconds * 1000000 + d.time.seconds * 1000000000)
          (d.time.minutes * 60000000000))
        (Nat.add_le_add_right hX4 _)
      rw [roundToF64_eq_self _ (le_trans hX5 c5)]
      have hX6 := le_trans
        (Int.natAbs_add_le
          (i.nanos + d.time.nanoseconds + d.time.microseconds * 1000 +
            d.time.milliseconds * 1000000 + d.time.seconds * 1000000000 +
            d.time.minutes * 60000000000)
          (d.time.hours * 3600000000000))
        (Nat.add_le_add_right hX5 _)
      rw [roundToF64_eq_self _ (le_trans hX6 c6)]
      rw [Instant.new_eq]
      have he : i.nanos + d.time.nanoseconds + d.time.microseconds * 1000 +
          d.time.milliseconds * 1000000 + d.time.seconds * 1000000000 +
          d.time.minutes * 60000000000 + d.time.hours * 3600000000000
          = i.nanos + d.time.total_nanoseconds := by
        unfold TimeDuration.total_nanoseconds
        ring
      rw [he]
    · have hsub : i.subtract d = i.add_to_instant d.time.negated := by
        unfold Instant.subtract
        rw [if_pos h]
        rfl
      rw [hsub]
      unfold Instant.add_to_instant TimeDuration.negated
      have hc1 : i.nanos.natAbs + (-d.time.nanoseconds).natAbs ≤ 2 ^ 53 := by
        rw [Int.natAbs_neg]
        exact c1
      have hc2 : i.nanos.natAbs + (-d.time.nanoseconds).natAbs +
          (-d.time.microseconds * 1000).natAbs ≤ 2 ^ 53 := by
        rw [Int.natAbs_neg, Int.neg_mul, Int.natAbs_neg]
        exact c2
      have hc3 : i.nanos.natAbs + (-d.time.nanoseconds).natAbs +
          (-d.time.microseconds * 1000).natAbs +
          (-d.time.milliseconds * 1000000).natAbs ≤ 2 ^ 53 := by
        rw [Int.natAbs_neg, Int.neg_mul, Int.natAbs_neg, Int.neg_mul,
          Int.natAbs_neg]
        exact c3
      have hc4 : i.nanos.natAbs + (-d.time.nanoseconds).natAbs +
          (-d.time.microseconds * 1000).natAbs +
          (-d.time.milliseconds * 1000000).natAbs +
          (-d.time.seconds * 1000000000).natAbs ≤ 2 ^ 53 := by
        rw [Int.natAbs_neg, Int.neg_mul, Int.natAbs_neg, Int.neg_mul,
          Int.natAbs_neg, Int.neg_mul, Int.natAbs_neg]
        exact c4
      have hc5 : i.nanos.natAbs + (-d.time.nanoseconds).natAbs +
          (-d.time.microseconds * 1000).natAbs +
          (-d.time.milliseconds * 1000000).natAbs +
          (-d.time.seconds * 1000000000).natAbs +
          (-d.time.minutes * 60000000000).natAbs ≤ 2 ^ 53 := by
        rw [Int.natAbs_neg, Int.neg_mul, Int.natAbs_neg, Int.neg_mul,
          Int.natAbs_neg, Int.neg_mul, Int.natAbs_neg, Int.neg_mul,
          Int.natAbs_neg]
        exact c5
      have hc6 : i.nanos.natAbs + (-d.time.nanoseconds).natAbs +
          (-d.time.microseconds * 1000).natAbs +
          (-d.time.milliseconds * 1000000).natAbs +
          (-d.time.seconds * 1000000000).natAbs +
          (-d.time.minutes * 60000000000).natAbs +
          (-d.time.hours * 3600000000000).natAbs ≤ 2 ^ 53 := by
        rw [Int.natAbs_neg, Int.neg_mul, Int.natAbs_neg, Int.neg_mul,
          Int.natAbs_neg, Int.neg_mul, Int.natAbs_neg, Int.neg_mul,
          Int.natAbs_neg, Int.neg_mul, Int.natAbs_neg]
        exact c6
      have e0 : roundToF64 i.nanos = i.nanos :=
        roundToF64_eq_self _ (by omega)
      have p2 : roundToF64 (-d.time.microseconds * 1000) =
          -d.time.microseconds * 1000 :=
        roundToF64_eq_self _ (le_trans (Nat.le_add_left _ _) hc2)
      have p3 : roundToF64 (-d.time.milliseconds * 1000000) =
          -d.time.milliseconds * 1000000 :=
        roundToF64_eq_self _ (le_trans (Nat.le_add_left _ _) hc3)
      have p4 : roundToF64 (-d.time.seconds * 1000000000) =
          -d.time.seconds * 1000000000 :=
        roundToF64_eq_self _ (le_trans (Nat.le_add_left _ _) hc4)
      have p5 : roundToF64 (-d.time.minutes * 60000000000) =
          -d.time.minutes * 60000000000 :=
        roundToF64_eq_self _ (le_trans (Nat.le_add_left _ _) hc5)
      have p6 : roundToF64 (-d.time.hours * 3600000000000) =
          -d.time.hours * 3600000000000 :=
        roundToF64_eq_self _ (le_trans (Nat.le_add_left _ _) hc6)
      rw [e0, p2, p3, p4, p5, p6]
      have hX1 := Int.natAbs_add_le i.nanos (-d.time.nanoseconds)
      rw [roundToF64_eq_self _ (le_trans hX1 hc1)]
      have hX2 := le_trans
        (Int.natAbs_add_le (i.nanos + -d.time.nanoseconds)
          (-d.time.microseconds * 1000))
        (Nat.add_le_add_right hX1 _)
      rw [roundToF64_eq_self _ (le_trans hX2 hc2)]
      have hX3 := le_trans
        (Int.natAbs_add_le
          (i.nanos + -d.time.nanoseconds + -d.time.microseconds * 1000)
          (-d.time.milliseconds * 1000000))
        (Nat.add_le_add_right hX2 _)
      rw [roundToF64_eq_self _ (le_trans hX3 hc3)]
      have hX4 := le_trans
        (Int.natAbs_add_le
          (i.nanos + -d.time.nanoseconds + -d.time.microseconds * 1000 +
            -d.time.milliseconds * 1000000)
          (-d.time.seconds * 1000000000))
        (Nat.add_le_add_right hX3 _)
      rw [roundToF64_eq_self _ (le_trans hX4 hc4)]
      have hX5 := le_trans
        (Int.natAbs_add_le
          (i.nanos + -d.time.nanoseconds + -d.time.microseconds * 1000 +
            -d.time.milliseconds * 1000000 + -d.time.seconds * 1000000000)
          (-d.time.minutes * 60000000000))
        (Nat.add_le_add_right hX4 _)
      rw [roundToF64_eq_self _ (le_trans hX5 hc5)]
      have hX6 := le_trans
        (Int.natAbs_add_le
          (i.nanos + -d.time.nanoseconds + -d.time.microseconds * 1000 +
            -d.time.milliseconds * 1000000 + -d.time.seconds * 1000000000 +
            -d.time.minutes * 60000000000)
          (-d.time.hours * 3600000000000))
        (Nat.add_le_add_right hX5 _)
      rw [roundToF64_eq_self _ (le_trans hX6 hc6)]
      rw [Instant.new_eq]
      have he : i.nanos + -d.time.nanoseconds + -d.time.microseconds * 1000 +
          -d.time.milliseconds * 1000000 + -d.time.seconds * 1000000000 +
          -d.time.minutes * 60000000000 + -d.time.hours * 3600000000000
          = i.nanos - d.time.total_nanoseconds := by
        unfold TimeDuration.total_nanoseconds
        ring
      rw [he]

/-- Witness for the amended C1: one hour added to (resp. subtracted from)
the epoch, well within the exact f64 range. -/
theorem instant_add_subtract_exact_within_f64_witness :
    (⟨0⟩ : Instant).add ⟨⟨0, 0, 0, 0⟩, ⟨1, 0, 0, 0, 0, 0⟩⟩
        = .ok ⟨3600000000000⟩
    ∧ (⟨0⟩ : Instant).subtract ⟨⟨0, 0, 0, 0⟩, ⟨1, 0, 0, 0, 0, 0⟩⟩
        = .ok ⟨-3600000000000⟩ := by
  have h := (instant_add_subtract_exact_within_f64 ⟨0⟩
    ⟨⟨0, 0, 0, 0⟩, ⟨1, 0, 0, 0, 0, 0⟩⟩).2 (by decide) (by decide)
  refine ⟨?_, ?_⟩
  · rw [h.1]
    decide
  · rw [h.2]
    decide

/-- `PlainTime::new_with_overflow` never fails with `TypeError` (it
validates numerically, producing at most `RangeError`). -/
theorem PlainTime.new_with_overflow_ne_type (h mi s ms us ns : Int)
    (overflow : ArithmeticOverflow) :
    PlainTime.new_with_overflow h mi s ms us ns overflow ≠ .error .type := by
  unfold PlainTime.new_with_overflow IsoTime.new
  cases overflow
  · simp
  · dsimp only
    split_ifs <;> simp

/-- Claim C8: `PlainTime::with` fails with `TypeError` exactly when the
field set is empty; otherwise it overlays the present fields onto the
current values and re-validates as a full construction under the given
overflow policy (`Constrain` when none is supplied). -/
theorem plaintime_with_overlay (t : PlainTime) (p : PartialTime)
    (o : Option ArithmeticOverflow) :
    (p.is_empty → PlainTime.with t p o = .error .type)
    ∧ (p.is_empty = false →
      PlainTime.with t p o =
        PlainTime.new_with_overflow (p.hour.getD t.hour)
          (p.minute.getD t.minute) (p.second.getD t.second)
          (p.millisecond.getD t.millisecond) (p.microsecond.getD t.microsecond)
          (p.nanosecond.getD t.nanosecond) (o.getD .constrain))
    ∧ (PlainTime.with t p o = .error .type ↔ p.is_empty) := by
  have hempty : ∀ h : p.is_empty, PlainTime.with t p o = .error .type := by
    intro h
    unfold PlainTime.with
    rw [if_pos h]
  have hfull : p.is_empty = false →
      PlainTime.with t p o =
        PlainTime.new_with_overflow (p.hour.getD t.hour)
          (p.minute.getD t.minute) (p.second.getD t.second)
          (p.millisecond.getD t.millisecond) (p.microsecond.getD t.microsecond)
          (p.nanosecond.getD t.nanosecond) (o.getD .constrain) := by
    intro h
    unfold PlainTime.with
    rw [if_neg (by simp [h])]
    unfold IsoTime.with PlainTime.new_with_overflow PlainTime.hour
      PlainTime.minute PlainTime.second PlainTime.millisecond
      PlainTime.microsecond PlainTime.nanosecond
    rfl
  refine ⟨hempty, hfull, ?_, hempty⟩
  intro h
  cases he : p.is_empty
  · rw [hfull he] at h
    exact absurd h (PlainTime.new_with_overflow_ne_type _ _ _ _ _ _ _)
  · rfl

/-- Witness for C8: an empty overlay fails `TypeError`; overlaying only the
hour re-validates the full field set with `Constrain`. -/
theorem plaintime_with_overlay_witness :
    PlainTime.with ⟨⟨1, 2, 3, 4, 5, 6⟩⟩ ⟨none, none, none, none, none, none⟩
        none = .error .type
    ∧ PlainTime.with ⟨⟨1, 2, 3, 4, 5, 6⟩⟩
        ⟨some 7, none, none, none, none, none⟩ none
      = PlainTime.new_with_overflow 7 2 3 4 5 6 .constrain :=
  ⟨(plaintime_with_overlay ⟨⟨1, 2, 3, 4, 5, 6⟩⟩
      ⟨none, none, none, none, none, none⟩ none).1 (by decide),
    (plaintime_with_overlay ⟨⟨1, 2, 3, 4, 5, 6⟩⟩
      ⟨some 7, none, none, none, none, none⟩ none).2.1 (by decide)⟩

/-- Claim C9: the bridge-layer enumerations reproduce the core enumerations
with identical members and ordering — the name-wise `enum_convert` maps are
mutually inverse bijections preserving every ordinal (`TemporalUnit` 0-10,
the nine rounding modes, `Constrain`/`Reject`). -/
theorem capi_enums_mirror_core :
    (∀ u : ffi.TemporalUnit, u.toCore.ordinal = u.ordinal)
    ∧ (∀ u : ffi.TemporalUnit, ffi.TemporalUnit.ofCore u.toCore = u)
    ∧ (∀ u : TemporalUnit, (ffi.TemporalUnit.ofCore u).toCore = u)
    ∧ (∀ m : ffi.TemporalRoundingMode, m.toCore.ordinal = m.ordinal)
    ∧ (∀ m : ffi.TemporalRoundingMode,
        ffi.TemporalRoundingMode.ofCore m.toCore = m)
    ∧ (∀ m : TemporalRoundingMode, (ffi.TemporalRoundingMode.ofCore m).toCore = m)
    ∧ (∀ o : ffi.ArithmeticOverflow, o.toCore.ordinal = o.ordinal)
    ∧ (∀ o : ffi.ArithmeticOverflow, ffi.ArithmeticOverflow.ofCore o.toCore = o)
    ∧ (∀ o : ArithmeticOverflow, (ffi.ArithmeticOverflow.ofCore o).toCore = o) := by
  refine ⟨?_, ?_, ?_, ?_, ?_, ?_, ?_, ?_, ?_⟩ <;> intro x <;> cases x <;> rfl

/-- Claim C10: subtraction is addition of the negated duration — at the
`TimeDuration` interface definitionally, and at the `Duration` interface
after the zero-date-part guard. -/
theorem subtract_is_add_negated :
    (∀ (i : Instant) (d : TimeDuration),
      i.subtract_time_duration d = i.add_time_duration d.negated)
    ∧ (∀ (t : PlainTime) (d : TimeDuration),
      t.subtract_time_duration d = t.add_time_duration d.negated)
    ∧ (∀ (i : Instant) (d : Duration), d.is_time_duration →
      i.subtract d = i.add_time_duration d.time.negated)
    ∧ (∀ (t : PlainTime) (d : Duration), d.is_time_duration →
      t.subtract d = .ok (t.add_time_duration d.time.negated)) := by
  refine ⟨fun _ _ => rfl, fun _ _ => rfl, ?_, ?_⟩
  · intro i d h
    unfold Instant.subtract
    rw [if_pos h]
    rfl
  · intro t d h
    unfold PlainTime.subtract
    rw [if_pos h]
    rfl

/-- Witness for C10: the `Duration`-level equations at a one-hour
time-only duration. -/
theorem subtract_is_add_negated_witness :
    (⟨0⟩ : Instant).subtract ⟨⟨0, 0, 0, 0⟩, ⟨1, 0, 0, 0, 0, 0⟩⟩
        = (⟨0⟩ : Instant).add_time_duration
            (TimeDuration.negated ⟨1, 0, 0, 0, 0, 0⟩)
    ∧ PlainTime.subtract ⟨⟨12, 0, 0, 0, 0, 0⟩⟩ ⟨⟨0, 0, 0, 0⟩, ⟨1, 0, 0, 0, 0, 0⟩⟩
        = .ok (PlainTime.add_time_duration ⟨⟨12, 0, 0, 0, 0, 0⟩⟩
            (TimeDuration.negated ⟨1, 0, 0, 0, 0, 0⟩)) :=
  ⟨subtract_is_add_negated.2.2.1 ⟨0⟩ ⟨⟨0, 0, 0, 0⟩, ⟨1, 0, 0, 0, 0, 0⟩⟩
      (by decide),
    subtract_is_add_negated.2.2.2 ⟨⟨12, 0, 0, 0, 0, 0⟩⟩
      ⟨⟨0, 0, 0, 0⟩, ⟨1, 0, 0, 0, 0, 0⟩⟩ (by decide)⟩

end Temporal
